import Mathlib

/-!
# Progression & Mastery Engine — verification development

Shallow embedding of the progression core of the Stratos backend
(`backend/stratos.py`): quiz scoring, streak/XP/level updates, hearts,
lesson-completion upserts, achievement awarding, and the lesson-unlock
derivation, together with theorems about them.

Modelling conventions:
* Python strings become Lean `String`; `str.lower()` becomes a per-`Char`
  lowercasing map (`lowerStr`) and `str.strip()` drops leading/trailing
  whitespace (`stripStr`); both agree with Python on the ASCII inputs the
  catalog uses.
* Python ints become `Nat` (all progression counters are non-negative)
  except calendar-day arithmetic, which uses `Int` day numbers:
  `last_practice_date` stores a day number and the day difference
  `(now.date() - last_date).days` becomes integer subtraction.
* `int((correct / total) * 100)` (float divide, scale, truncate) is
  embedded as the Nat floor division `correct * 100 / total`; for
  `correct ≤ total ≤ 4` — every catalog lesson has 3 or 4 graded items —
  the double-precision computation is exact enough that the two agree.
  When `total = 0` Python raises `ZeroDivisionError`; the embedding
  returns `none` there.
* Mongo documents for one user become a `Store` record:
  `users` fields relevant to the core become `UserState`,
  `lesson_progress` documents become a `List ProgressRec`;
  `update_one(..., upsert=True)` keyed on `lesson_id` replaces the first
  matching record or appends.
* Raising `HTTPException`/an uncaught error before any write becomes an
  `Except` error result; the request-level state transition `stepEvent`
  keeps the store unchanged on an error, mirroring that no write ran.
-/

/-- One graded item of a lesson.  The source's content entries also carry
`type`, `question`, `options`, `voice_url`, `hint`; scoring and every claim
read only `correct_answer`, so only that field is embedded. -/
structure LessonItem where
  correct_answer : String
deriving DecidableEq, Repr

/-- A catalog lesson (`Lesson` model / `SAMPLE_LESSONS` entries); `title`
and `description` are omitted as no claim reads them. -/
structure Lesson where
  id : String
  language : String
  order : Nat
  xp_reward : Nat
  content : List LessonItem
deriving DecidableEq, Repr

/-- The lesson catalog: the `LANGUAGES` code list and the
`SAMPLE_LESSONS` mapping from language code to its lesson list. -/
structure Catalog where
  languages : List String
  lessons : List (String × List Lesson)
deriving DecidableEq, Repr

/-- `SAMPLE_LESSONS.get(language, [])`. -/
def Catalog.lessonsFor (cat : Catalog) (language : String) : List Lesson :=
  (cat.lessons.lookup language).getD []

/-- The progression fields of a `users` document read and written by the
core (identity and credential fields omitted). -/
structure UserState where
  xp : Nat
  level : Nat
  streak : Nat
  hearts : Nat
  last_practice_date : Option Int
  languages_learning : List String
  achievements : List String
deriving DecidableEq, Repr

/-- A `lesson_progress` document (the `completed_at` timestamp is omitted
as no claim reads it). -/
structure ProgressRec where
  lesson_id : String
  language : String
  completed : Bool
  score : Nat
deriving DecidableEq, Repr

/-- One user's slice of the Mongo store. -/
structure Store where
  user : UserState
  progress : List ProgressRec
deriving DecidableEq, Repr

/-- A fresh profile as created by `register`. -/
def initialUser : UserState :=
  { xp := 0, level := 1, streak := 0, hearts := 5,
    last_practice_date := none, languages_learning := [], achievements := [] }

/-- The store for a freshly registered user. -/
def initialStore : Store := { user := initialUser, progress := [] }

/-- `str.lower()` as a character-list map (agrees with Python on the
ASCII letters the catalog answers use). -/
def lowerStr (s : String) : String := ⟨s.data.map Char.toLower⟩

/-- `str.strip()`: drop leading and trailing whitespace characters. -/
def stripStr (s : String) : String :=
  ⟨((s.data.dropWhile Char.isWhitespace).reverse.dropWhile
      Char.isWhitespace).reverse⟩

/-- `answer.lower().strip()` — the normalization applied to both the
submitted and the expected answer before comparison. -/
def normalizeAnswer (s : String) : String := stripStr (lowerStr s)

/-- Output of the scoring loop (`correct`, `total`, `score_pct`,
`passed` locals of `complete_lesson`). -/
structure ScoreOutcome where
  correct : Nat
  total : Nat
  score_pct : Nat
  passed : Bool
deriving DecidableEq, Repr

/-- The scoring step of `complete_lesson`: iterate over the submitted
answers, count index `i` when `i` is below the item count and the
normalized answers agree (`zip` truncates exactly like the loop's
`i < len(lesson.content)` guard); then `total`, `score_pct`, `passed`.
`none` models the `ZeroDivisionError` Python raises at
`score_pct = int((correct / total) * 100)` when the lesson has zero
graded items. -/
def gradeSubmission (answers : List String) (content : List LessonItem) :
    Option ScoreOutcome :=
  let correct := (answers.zip content).countP
    (fun p => normalizeAnswer p.1 == normalizeAnswer p.2.correct_answer)
  let total := content.length
  if total = 0 then none
  else
    let score_pct := correct * 100 / total
    some { correct := correct, total := total, score_pct := score_pct,
           passed := 70 ≤ score_pct }

/-- Streak transition of `complete_lesson`: from the prior streak, the
stored `last_practice_date` and the current day, return
`(new_streak, streak_bonus)`. -/
def updateStreak (streak : Nat) (last : Option Int) (today : Int) :
    Nat × Nat :=
  match last with
  | none => (1, 0)
  | some d =>
    let days_diff : Int := today - d
    if days_diff = 1 then
      let new_streak := streak + 1
      (new_streak, min (new_streak * 2) 20)
    else if 1 < days_diff then (1, 0)
    else (streak, 0)

/-- `check_and_award_achievement`: append the id unless already present. -/
def awardAchievement (achs : List String) (aid : String) : List String :=
  if aid ∈ achs then achs else achs ++ [aid]

/-- The rule table of `check_lesson_achievements`, in source order:
each row is (condition, achievement id). -/
def lessonRules (completedCount streak xp level : Nat) (perfect : Bool) :
    List (Bool × String) :=
  [ (completedCount == 1, "first-lesson"),
    (3 ≤ streak, "streak-3"),
    (7 ≤ streak, "streak-7"),
    (30 ≤ streak, "streak-30"),
    (100 ≤ xp, "xp-100"),
    (500 ≤ xp, "xp-500"),
    (1000 ≤ xp, "xp-1000"),
    (perfect, "perfect-lesson"),
    (5 ≤ level, "level-5"),
    (10 ≤ level, "level-10") ]

/-- One conditional award (`if condition: await check_and_award_achievement(...)`). -/
def applyRule (achs : List String) (rule : Bool × String) : List String :=
  if rule.1 then awardAchievement achs rule.2 else achs

/-- `check_lesson_achievements`: run the conditional awards of the rule
table in order over the achievement list. -/
def checkLessonAchievements (completedCount streak xp level : Nat)
    (perfect : Bool) (achs : List String) : List String :=
  (lessonRules completedCount streak xp level perfect).foldl applyRule achs

/-- `QuizResult` response model of `complete_lesson`. -/
structure QuizResult where
  correct : Nat
  total : Nat
  xp_earned : Nat
  passed : Bool
  new_level : Option Nat
  streak_bonus : Nat
deriving DecidableEq, Repr

/-- How a `complete_lesson` request can abort before any write:
`notFound` is the HTTP 404 for an unknown language or lesson id,
`zeroDivision` the uncaught `ZeroDivisionError` for a zero-item lesson. -/
inductive CompleteError where
  | notFound
  | zeroDivision
deriving DecidableEq, Repr

/-- `next((l for l in SAMPLE_LESSONS.get(language, []) if l.id == lesson_id), None)`. -/
def findLesson (cat : Catalog) (language lesson_id : String) : Option Lesson :=
  (cat.lessonsFor language).find? (fun l => l.id == lesson_id)

/-- `lesson_progress.update_one({user_id, lesson_id}, {$set: record},
upsert=True)`: replace the first record with this `lesson_id`, or append
when none exists. -/
def upsertProgress : List ProgressRec → ProgressRec → List ProgressRec
  | [], r => [r]
  | p :: ps, r =>
    if p.lesson_id == r.lesson_id then r :: ps else p :: upsertProgress ps r

/-- `lesson_progress.count_documents({user_id, completed: True})`. -/
def completedCount (ps : List ProgressRec) : Nat :=
  (ps.filter (fun p => p.completed)).length

/-- The write-and-respond tail of `complete_lesson`, after the lesson was
found and graded: streak/XP/level/hearts computation, the `$set` on the
user document, the progress upsert, `check_lesson_achievements`, and the
`QuizResult` response. -/
def applyCompletion (s : Store) (lesson : Lesson) (language lesson_id : String)
    (sc : ScoreOutcome) (today : Int) : Store × QuizResult :=
  let base_xp := if sc.passed then lesson.xp_reward else lesson.xp_reward / 2
  let sb := updateStreak s.user.streak s.user.last_practice_date today
  let new_streak := sb.1
  let streak_bonus := sb.2
  let total_xp := base_xp + streak_bonus
  let new_total_xp := s.user.xp + total_xp
  let new_level := new_total_xp / 100 + 1
  let old_level := s.user.level
  let hearts' := if !sc.passed && decide (0 < s.user.hearts)
    then s.user.hearts - 1 else s.user.hearts
  let progress' := upsertProgress s.progress
    { lesson_id := lesson_id, language := language,
      completed := sc.passed, score := sc.score_pct }
  let achs' := checkLessonAchievements (completedCount progress')
    new_streak new_total_xp new_level (sc.score_pct == 100)
    s.user.achievements
  let user' : UserState :=
    { xp := new_total_xp, level := new_level, streak := new_streak,
      hearts := hearts', last_practice_date := some today,
      languages_learning := s.user.languages_learning,
      achievements := achs' }
  ({ user := user', progress := progress' },
    { correct := sc.correct, total := sc.total, xp_earned := total_xp,
      passed := sc.passed,
      new_level := if old_level < new_level then some new_level else none,
      streak_bonus := streak_bonus })

/-- The `complete_lesson` handler as a transition on one user's store:
look up the lesson, grade, then `applyCompletion`.  An error result means
the handler aborted (404 / division by zero) before any write. -/
def completeLesson (cat : Catalog) (s : Store) (language lesson_id : String)
    (answers : List String) (today : Int) :
    Except CompleteError (Store × QuizResult) :=
  match findLesson cat language lesson_id with
  | none => .error .notFound
  | some lesson =>
    match gradeSubmission answers lesson.content with
    | none => .error .zeroDivision
    | some sc => .ok (applyCompletion s lesson language lesson_id sc today)

/-- The `start_language` handler: 404 (no change) on an unknown code;
otherwise add the code to `languages_learning` if absent, and when the
list then has at least 3 codes run the multi-language award. -/
def startLanguage (cat : Catalog) (s : Store) (code : String) : Store :=
  if code ∈ cat.languages then
    let langs := if code ∈ s.user.languages_learning
      then s.user.languages_learning
      else s.user.languages_learning ++ [code]
    let achs := if 3 ≤ langs.length
      then awardAchievement s.user.achievements "multi-language"
      else s.user.achievements
    let u := s.user
    { s with user :=
      { u with languages_learning := langs, achievements := achs } }
  else s

/-- A progression-relevant API request of one user. -/
inductive Event where
  | start (code : String)
  | complete (language lesson_id : String) (answers : List String) (today : Int)
deriving DecidableEq, Repr

/-- The store transition of one request; a failed `complete_lesson`
leaves the store unchanged (the handler raises before any write). -/
def stepEvent (cat : Catalog) (s : Store) : Event → Store
  | .start code => startLanguage cat s code
  | .complete language lesson_id answers today =>
    match completeLesson cat s language lesson_id answers today with
    | .ok (s', _) => s'
    | .error _ => s

/-- Apply a sequence of requests in order. -/
def runEvents (cat : Catalog) (s : Store) : List Event → Store
  | [] => s
  | e :: es => runEvents cat (stepEvent cat s e) es

/-- Stores reachable from a fresh registration by any request sequence. -/
inductive Reachable (cat : Catalog) : Store → Prop where
  | init : Reachable cat initialStore
  | step : ∀ s e, Reachable cat s → Reachable cat (stepEvent cat s e)

/-- One row of the `get_lessons` response. -/
structure LessonView where
  id : String
  order : Nat
  xp_reward : Nat
  completed : Bool
  score : Nat
  locked : Bool
deriving DecidableEq, Repr

/-- `progress_map = {p.lesson_id: p for p in progress_docs}` lookup: the
dict comprehension keeps the last record with a given `lesson_id`. -/
def lookupProgress (docs : List ProgressRec) (lesson_id : String) :
    Option ProgressRec :=
  docs.reverse.find? (fun p => p.lesson_id == lesson_id)

/-- The per-lesson body of the `get_lessons` loop: completion flag and
score from the progress map (defaults `False` / `0`), and the lock flag:
`order == 1` is never locked; for `order > 1` the lesson is locked unless
some lesson of the previous order has a completed record. -/
def lessonView (lessons : List Lesson) (docs : List ProgressRec)
    (lesson : Lesson) : LessonView :=
  let pm := lookupProgress docs lesson.id
  let locked :=
    if lesson.order == 1 then false
    else if 1 < lesson.order then
      let prev := lessons.filter (fun l => l.order == lesson.order - 1)
      !(prev.any (fun l =>
        ((lookupProgress docs l.id).map (fun p => p.completed)).getD false))
    else false
  { id := lesson.id, order := lesson.order, xp_reward := lesson.xp_reward,
    completed := (pm.map (fun p => p.completed)).getD false,
    score := (pm.map (fun p => p.score)).getD 0,
    locked := locked }

/-- The `get_lessons` handler: the user's progress records for the
language, then one `LessonView` per catalog lesson. -/
def getLessons (cat : Catalog) (s : Store) (language : String) :
    List LessonView :=
  let lessons := cat.lessonsFor language
  let docs := s.progress.filter (fun p => p.language == language)
  lessons.map (lessonView lessons docs)

/-- The first curated Spanish lesson (`es-basics-1`), as in `SAMPLE_LESSONS`. -/
def esBasics1 : Lesson :=
  { id := "es-basics-1", language := "es", order := 1, xp_reward := 15,
    content := [⟨"hola"⟩, ⟨"Good morning"⟩, ⟨"gracias"⟩, ⟨"Adiós"⟩] }

/-- The second curated Spanish lesson (`es-basics-2`). -/
def esBasics2 : Lesson :=
  { id := "es-basics-2", language := "es", order := 2, xp_reward := 15,
    content := [⟨"uno dos tres"⟩, ⟨"Five"⟩, ⟨"siete"⟩, ⟨"Nueve"⟩] }

/-- A concrete catalog for instantiating theorems: the `LANGUAGES` code
list and the first two curated Spanish lessons of `SAMPLE_LESSONS`. -/
def sampleCatalog : Catalog :=
  { languages := ["es", "fr", "de", "ja", "zh", "it", "pt", "ko", "ru", "ar"],
    lessons := [("es", [esBasics1, esBasics2])] }

/-- A store at a level boundary: 90 XP, level 1, streak 1, last practice
day 0, the first Spanish lesson already passed. -/
def store90 : Store :=
  { user := { xp := 90, level := 1, streak := 1, hearts := 5,
              last_practice_date := some 0, languages_learning := ["es"],
              achievements := ["first-lesson"] },
    progress := [{ lesson_id := "es-basics-1", language := "es",
                   completed := true, score := 100 }] }

/-- The store `store90` after acing `es-basics-2` on day 1. -/
def store90After : Store :=
  { user := { xp := 109, level := 2, streak := 2, hearts := 5,
              last_practice_date := some 1, languages_learning := ["es"],
              achievements := ["first-lesson", "xp-100", "perfect-lesson"] },
    progress := [{ lesson_id := "es-basics-1", language := "es",
                   completed := true, score := 100 },
                 { lesson_id := "es-basics-2", language := "es",
                   completed := true, score := 100 }] }

/-- The quiz result of that completion. -/
def result90 : QuizResult :=
  { correct := 4, total := 4, xp_earned := 19, passed := true,
    new_level := some 2, streak_bonus := 4 }

/-- The store of a fresh user after acing `es-basics-1` on day 0. -/
def firstStore : Store :=
  { user := { xp := 15, level := 1, streak := 1, hearts := 5,
              last_practice_date := some 0, languages_learning := [],
              achievements := ["first-lesson", "perfect-lesson"] },
    progress := [{ lesson_id := "es-basics-1", language := "es",
                   completed := true, score := 100 }] }

/-- The quiz result of that first completion. -/
def firstResult : QuizResult :=
  { correct := 4, total := 4, xp_earned := 15, passed := true,
    new_level := none, streak_bonus := 0 }

/-- Invariant of reachable stores: `languages_learning` has no duplicate
codes (only `start_language` appends, and only when absent), and whenever
it has at least 3 codes the multi-language achievement has already been
awarded (by `start_language` itself). -/
def LangInv (s : Store) : Prop :=
  s.user.languages_learning.Nodup ∧
  (3 ≤ s.user.languages_learning.length →
    "multi-language" ∈ s.user.achievements)

/-! ## Concrete evaluations -/

example : gradeSubmission ["HOLA ", "Good morning", "gracias", "wrong"]
    [⟨"hola"⟩, ⟨"Good morning"⟩, ⟨"gracias"⟩, ⟨"Adiós"⟩]
    = some { correct := 3, total := 4, score_pct := 75, passed := true } := by
  decide

example : updateStreak 2 (some 10) 11 = (3, 6) := by decide
example : updateStreak 10 (some 10) 13 = (1, 0) := by decide
example : updateStreak 4 none 11 = (1, 0) := by decide
example : updateStreak 4 (some 11) 11 = (4, 0) := by decide

example :
    completeLesson sampleCatalog initialStore "es" "es-basics-1"
      ["hola", "Good morning", "gracias", "Adiós"] 0 =
    .ok ({ user := { xp := 15, level := 1, streak := 1, hearts := 5,
                     last_practice_date := some 0,
                     languages_learning := [],
                     achievements := ["first-lesson", "perfect-lesson"] },
           progress := [{ lesson_id := "es-basics-1", language := "es",
                          completed := true, score := 100 }] },
         { correct := 4, total := 4, xp_earned := 15, passed := true,
           new_level := none, streak_bonus := 0 }) := rfl

example : completeLesson sampleCatalog store90 "es" "es-basics-2"
    ["uno dos tres", "Five", "siete", "Nueve"] 1
    = .ok (store90After, result90) := rfl

/-! ## Achievement lemmas -/

lemma mem_awardAchievement_self (achs : List String) (aid : String) :
    aid ∈ awardAchievement achs aid := by
  unfold awardAchievement
  split
  · assumption
  · simp

lemma mem_awardAchievement_of_mem {a : String} {achs : List String}
    (aid : String) (h : a ∈ achs) : a ∈ awardAchievement achs aid := by
  unfold awardAchievement
  split
  · exact h
  · simp [h]

lemma awardAchievement_of_mem {aid : String} {achs : List String}
    (h : aid ∈ achs) : awardAchievement achs aid = achs := by
  simp [awardAchievement, h]

lemma nodup_awardAchievement {achs : List String} (aid : String)
    (h : achs.Nodup) : (awardAchievement achs aid).Nodup := by
  unfold awardAchievement
  split
  · exact h
  · next hmem => simp [List.nodup_append, h, hmem]

lemma mem_applyRule_of_mem {a : String} {achs : List String}
    (rule : Bool × String) (h : a ∈ achs) : a ∈ applyRule achs rule := by
  unfold applyRule
  split
  · exact mem_awardAchievement_of_mem _ h
  · exact h

lemma nodup_applyRule {achs : List String} (rule : Bool × String)
    (h : achs.Nodup) : (applyRule achs rule).Nodup := by
  unfold applyRule
  split
  · exact nodup_awardAchievement _ h
  · exact h

lemma mem_foldl_applyRule_of_mem {a : String} :
    ∀ (rules : List (Bool × String)) (achs : List String), a ∈ achs →
      a ∈ rules.foldl applyRule achs
  | [], _, h => h
  | _ :: rules, achs, h =>
    mem_foldl_applyRule_of_mem rules _ (mem_applyRule_of_mem _ h)

lemma nodup_foldl_applyRule :
    ∀ (rules : List (Bool × String)) (achs : List String), achs.Nodup →
      (rules.foldl applyRule achs).Nodup
  | [], _, h => h
  | _ :: rules, achs, h =>
    nodup_foldl_applyRule rules _ (nodup_applyRule _ h)

lemma mem_foldl_applyRule_of_rule {aid : String} :
    ∀ (rules : List (Bool × String)) (achs : List String),
      (true, aid) ∈ rules → aid ∈ rules.foldl applyRule achs
  | rule :: rules, achs, h => by
    rcases List.mem_cons.mp h with heq | hmem
    · subst heq
      exact mem_foldl_applyRule_of_mem rules _ (mem_awardAchievement_self _ _)
    · exact mem_foldl_applyRule_of_rule rules _ hmem

lemma mem_checkLessonAchievements_of_mem {a : String}
    (c st xp lv : Nat) (p : Bool) {achs : List String} (h : a ∈ achs) :
    a ∈ checkLessonAchievements c st xp lv p achs :=
  mem_foldl_applyRule_of_mem _ _ h

lemma nodup_checkLessonAchievements
    (c st xp lv : Nat) (p : Bool) {achs : List String} (h : achs.Nodup) :
    (checkLessonAchievements c st xp lv p achs).Nodup :=
  nodup_foldl_applyRule _ _ h

/-! ## Grading lemmas -/

lemma gradeSubmission_eq_none_iff (answers : List String)
    (content : List LessonItem) :
    gradeSubmission answers content = none ↔ content = [] := by
  by_cases hc : content = []
  · subst hc; simp [gradeSubmission]
  · simp only [gradeSubmission]
    rw [if_neg (by simpa using hc)]
    simp [hc]

lemma gradeSubmission_some (answers : List String)
    {content : List LessonItem} (h : content ≠ []) :
    gradeSubmission answers content =
      some { correct := (answers.zip content).countP
               (fun p => normalizeAnswer p.1 == normalizeAnswer p.2.correct_answer),
             total := content.length,
             score_pct := (answers.zip content).countP
               (fun p => normalizeAnswer p.1 == normalizeAnswer p.2.correct_answer)
               * 100 / content.length,
             passed := decide (70 ≤ (answers.zip content).countP
               (fun p => normalizeAnswer p.1 == normalizeAnswer p.2.correct_answer)
               * 100 / content.length) } := by
  simp only [gradeSubmission]
  rw [if_neg (by simpa using h)]

lemma gradeSubmission_spec {answers : List String}
    {content : List LessonItem} {sc : ScoreOutcome}
    (h : gradeSubmission answers content = some sc) :
    sc.total = content.length ∧
    sc.score_pct = sc.correct * 100 / sc.total ∧
    sc.passed = decide (70 ≤ sc.score_pct) := by
  by_cases hc : content = []
  · rw [(gradeSubmission_eq_none_iff answers content).mpr hc] at h
    cases h
  · rw [gradeSubmission_some answers hc] at h
    cases h
    exact ⟨rfl, rfl, rfl⟩

/-- The zip-based count of the scoring loop equals the claim-side count
over all item indices: an index contributes exactly when a submitted
answer exists there and normalizes to the expected answer. -/
lemma countP_zip_eq_count_range (f : String → String → Bool) :
    ∀ (answers : List String) (content : List LessonItem),
      (answers.zip content).countP (fun p => f p.1 p.2.correct_answer)
      = (List.range content.length).countP (fun i =>
          match answers[i]?, content[i]? with
          | some a, some c => f a c.correct_answer
          | _, _ => false)
  | [], content => by
    simp [List.countP_eq_zero]
  | a :: answers, [] => by
    simp
  | a :: answers, c :: content => by
    rw [List.zip_cons_cons, List.countP_cons, List.length_cons,
      List.range_succ_eq_map, List.countP_cons, List.countP_map,
      countP_zip_eq_count_range f answers content]
    simp [Function.comp_def]

/-! ## Completion-transition lemmas -/

lemma applyCompletion_fst_user_xp (s : Store) (lesson : Lesson)
    (language lesson_id : String) (sc : ScoreOutcome) (today : Int) :
    (applyCompletion s lesson language lesson_id sc today).1.user.xp
    = s.user.xp + ((if sc.passed then lesson.xp_reward else lesson.xp_reward / 2)
        + (updateStreak s.user.streak s.user.last_practice_date today).2) := rfl

lemma applyCompletion_fst_user_level (s : Store) (lesson : Lesson)
    (language lesson_id : String) (sc : ScoreOutcome) (today : Int) :
    (applyCompletion s lesson language lesson_id sc today).1.user.level
    = (applyCompletion s lesson language lesson_id sc today).1.user.xp / 100 + 1 := rfl

lemma applyCompletion_fst_user_streak (s : Store) (lesson : Lesson)
    (language lesson_id : String) (sc : ScoreOutcome) (today : Int) :
    (applyCompletion s lesson language lesson_id sc today).1.user.streak
    = (updateStreak s.user.streak s.user.last_practice_date today).1 := rfl

lemma applyCompletion_fst_user_langs (s : Store) (lesson : Lesson)
    (language lesson_id : String) (sc : ScoreOutcome) (today : Int) :
    (applyCompletion s lesson language lesson_id sc today).1.user.languages_learning
    = s.user.languages_learning := rfl

lemma applyCompletion_fst_progress (s : Store) (lesson : Lesson)
    (language lesson_id : String) (sc : ScoreOutcome) (today : Int) :
    (applyCompletion s lesson language lesson_id sc today).1.progress
    = upsertProgress s.progress
        { lesson_id := lesson_id, language := language,
          completed := sc.passed, score := sc.score_pct } := rfl

lemma applyCompletion_fst_user_achievements (s : Store) (lesson : Lesson)
    (language lesson_id : String) (sc : ScoreOutcome) (today : Int) :
    (applyCompletion s lesson language lesson_id sc today).1.user.achievements
    = checkLessonAchievements
        (completedCount (applyCompletion s lesson language lesson_id sc today).1.progress)
        (updateStreak s.user.streak s.user.last_practice_date today).1
        (applyCompletion s lesson language lesson_id sc today).1.user.xp
        ((applyCompletion s lesson language lesson_id sc today).1.user.xp / 100 + 1)
        (sc.score_pct == 100) s.user.achievements := rfl

lemma applyCompletion_snd (s : Store) (lesson : Lesson)
    (language lesson_id : String) (sc : ScoreOutcome) (today : Int) :
    (applyCompletion s lesson language lesson_id sc today).2
    = { correct := sc.correct, total := sc.total,
        xp_earned := (if sc.passed then lesson.xp_reward else lesson.xp_reward / 2)
          + (updateStreak s.user.streak s.user.last_practice_date today).2,
        passed := sc.passed,
        new_level := if s.user.level
            < (applyCompletion s lesson language lesson_id sc today).1.user.xp / 100 + 1
          then some ((applyCompletion s lesson language lesson_id sc today).1.user.xp / 100 + 1)
          else none,
        streak_bonus := (updateStreak s.user.streak s.user.last_practice_date today).2 } := rfl

/-- Inversion for a successful `complete_lesson`: the lesson was found,
graded, and the output is `applyCompletion` of the grading outcome. -/
lemma completeLesson_ok {cat : Catalog} {s : Store}
    {language lesson_id : String} {answers : List String} {today : Int}
    {s' : Store} {r : QuizResult}
    (h : completeLesson cat s language lesson_id answers today = .ok (s', r)) :
    ∃ lesson sc, findLesson cat language lesson_id = some lesson ∧
      gradeSubmission answers lesson.content = some sc ∧
      (s', r) = applyCompletion s lesson language lesson_id sc today := by
  unfold completeLesson at h
  cases hf : findLesson cat language lesson_id with
  | none => rw [hf] at h; cases h
  | some lesson =>
    rw [hf] at h
    dsimp only at h
    cases hg : gradeSubmission answers lesson.content with
    | none => rw [hg] at h; cases h
    | some sc =>
      rw [hg] at h
      dsimp only at h
      injection h with h2
      exact ⟨lesson, sc, rfl, hg, h2.symm⟩

/-! ## Upsert and store lemmas -/

lemma find?_upsertProgress :
    ∀ (ps : List ProgressRec) (rec : ProgressRec),
      (upsertProgress ps rec).find? (fun p => p.lesson_id == rec.lesson_id)
        = some rec
  | [], rec => by simp [upsertProgress]
  | p :: ps, rec => by
    unfold upsertProgress
    split
    · simp
    · next hne =>
      rw [List.find?_cons_of_neg _ (by simpa using hne)]
      exact find?_upsertProgress ps rec

lemma stepEvent_xp_mono (cat : Catalog) (s : Store) (e : Event) :
    s.user.xp ≤ (stepEvent cat s e).user.xp := by
  cases e with
  | start code =>
    simp only [stepEvent, startLanguage]
    split <;> simp
  | complete language lesson_id answers today =>
    simp only [stepEvent]
    cases h : completeLesson cat s language lesson_id answers today with
    | error _ => exact le_refl _
    | ok out =>
      have h' : completeLesson cat s language lesson_id answers today
          = .ok (out.1, out.2) := by rw [h]
      obtain ⟨lesson, sc, -, -, hout⟩ := completeLesson_ok h'
      have := congrArg (fun z => z.1.user.xp) hout
      simp only at this
      rw [this, applyCompletion_fst_user_xp]
      exact Nat.le_add_right _ _

lemma runEvents_xp_mono (cat : Catalog) :
    ∀ (events : List Event) (s : Store),
      s.user.xp ≤ (runEvents cat s events).user.xp
  | [], s => le_refl _
  | e :: events, s =>
    le_trans (stepEvent_xp_mono cat s e) (runEvents_xp_mono cat events _)

/-! ## Reachability invariant: distinct languages and the polyglot award -/

lemma langInv_initial : LangInv initialStore := by
  constructor
  · simp [initialStore, initialUser]
  · intro h
    simp [initialStore, initialUser] at h

lemma langInv_step (cat : Catalog) (s : Store) (e : Event)
    (hs : LangInv s) : LangInv (stepEvent cat s e) := by
  obtain ⟨hnd, hmem⟩ := hs
  cases e with
  | start code =>
    simp only [stepEvent, startLanguage]
    by_cases hc : code ∈ cat.languages
    · simp only [if_pos hc]
      by_cases hin : code ∈ s.user.languages_learning
      · simp only [if_pos hin]
        by_cases h3 : 3 ≤ s.user.languages_learning.length
        · simp only [if_pos h3]
          exact ⟨hnd, fun _ => mem_awardAchievement_self _ _⟩
        · simp only [if_neg h3]
          exact ⟨hnd, fun hh => absurd hh h3⟩
      · simp only [if_neg hin]
        by_cases h3 : 3 ≤ (s.user.languages_learning ++ [code]).length
        · simp only [if_pos h3]
          exact ⟨by simp [List.nodup_append, hnd, hin],
            fun _ => mem_awardAchievement_self _ _⟩
        · simp only [if_neg h3]
          exact ⟨by simp [List.nodup_append, hnd, hin],
            fun hh => absurd hh h3⟩
    · simp only [if_neg hc]
      exact ⟨hnd, hmem⟩
  | complete language lesson_id answers today =>
    simp only [stepEvent]
    cases h : completeLesson cat s language lesson_id answers today with
    | error _ => exact ⟨hnd, hmem⟩
    | ok out =>
      have h' : completeLesson cat s language lesson_id answers today
          = .ok (out.1, out.2) := by rw [h]
      obtain ⟨lesson, sc, -, -, hout⟩ := completeLesson_ok h'
      show LangInv out.1
      have h1 : out.1 = (applyCompletion s lesson language lesson_id sc today).1 :=
        congrArg Prod.fst hout
      rw [h1]
      constructor
      · rw [applyCompletion_fst_user_langs]
        exact hnd
      · rw [applyCompletion_fst_user_langs, applyCompletion_fst_user_achievements]
        intro hlen
        exact mem_checkLessonAchievements_of_mem _ _ _ _ _ (hmem hlen)

lemma langInv_reachable {cat : Catalog} {s : Store}
    (h : Reachable cat s) : LangInv s := by
  induction h with
  | init => exact langInv_initial
  | step s e _ ih => exact langInv_step cat s e ih

/-! ## Claim theorems -/

/-- C1: for a lesson with a non-empty item list, scoring returns
`correctCount` = the number of indices below the item count whose
submitted answer exists and, normalized (lowercased, stripped), equals the
normalized expected answer (missing answers count as incorrect, excess
answers are ignored); `totalItems` = the lesson's item count;
`scorePercent = ⌊correctCount * 100 / totalItems⌋`; and `passed` iff the
percentage is at least 70. -/
theorem scoring_matches_spec (answers : List String)
    (content : List LessonItem) (h : content ≠ []) :
    ∃ sc, gradeSubmission answers content = some sc ∧
      sc.correct = (List.range content.length).countP (fun i =>
        match answers[i]?, content[i]? with
        | some a, some c => normalizeAnswer a == normalizeAnswer c.correct_answer
        | _, _ => false) ∧
      sc.total = content.length ∧
      sc.score_pct = sc.correct * 100 / sc.total ∧
      (sc.passed = true ↔ 70 ≤ sc.score_pct) := by
  refine ⟨_, gradeSubmission_some answers h, ?_, rfl, rfl, ?_⟩
  · exact countP_zip_eq_count_range
      (fun a c => normalizeAnswer a == normalizeAnswer c) answers content
  · simp

/-- C1 witness: the scoring theorem at the first Spanish lesson with one
mismatched answer. -/
theorem scoring_matches_spec_witness :
    ∃ sc, gradeSubmission ["  HOLA", "Good morning", "GRACIAS ", "adios"]
        esBasics1.content = some sc ∧
      sc.correct = (List.range esBasics1.content.length).countP (fun i =>
        match ["  HOLA", "Good morning", "GRACIAS ", "adios"][i]?,
            esBasics1.content[i]? with
        | some a, some c => normalizeAnswer a == normalizeAnswer c.correct_answer
        | _, _ => false) ∧
      sc.total = esBasics1.content.length ∧
      sc.score_pct = sc.correct * 100 / sc.total ∧
      (sc.passed = true ↔ 70 ≤ sc.score_pct) :=
  scoring_matches_spec _ _ (by decide)

/-- C2: the streak transition depends only on the whole-day difference:
no prior date gives streak 1 and bonus 0; difference 0 keeps the streak
with bonus 0; difference 1 increments the streak with bonus
`min(newStreak * 2, 20)`; difference above 1 resets to 1 with bonus 0;
the bonus is non-zero only when the difference is exactly 1; and a graded
completion stores exactly this transition's streak and reports exactly
its bonus. -/
theorem streak_transition_cases (streak : Nat) (d today : Int) :
    updateStreak streak none today = (1, 0) ∧
    (today - d = 0 → updateStreak streak (some d) today = (streak, 0)) ∧
    (today - d = 1 → updateStreak streak (some d) today
      = (streak + 1, min ((streak + 1) * 2) 20)) ∧
    (1 < today - d → updateStreak streak (some d) today = (1, 0)) ∧
    (∀ last, (updateStreak streak last today).2 ≠ 0 →
      ∃ e, last = some e ∧ today - e = 1) ∧
    (∀ (cat : Catalog) (s : Store) (language lesson_id : String)
        (answers : List String) (s' : Store) (r : QuizResult),
      completeLesson cat s language lesson_id answers today = .ok (s', r) →
      s'.user.streak
        = (updateStreak s.user.streak s.user.last_practice_date today).1 ∧
      r.streak_bonus
        = (updateStreak s.user.streak s.user.last_practice_date today).2) := by
  refine ⟨rfl, ?_, ?_, ?_, ?_, ?_⟩
  · intro h
    simp [updateStreak, h]
  · intro h
    simp [updateStreak, h]
  · intro h
    have hne : today - d ≠ 1 := by omega
    simp [updateStreak, hne, h]
  · intro last h
    cases last with
    | none => exact absurd rfl h
    | some e =>
      simp only [updateStreak] at h
      split at h
      · next heq => exact ⟨e, rfl, heq⟩
      · split at h
        · exact absurd rfl h
        · exact absurd rfl h
  · intro cat s language lesson_id answers s' r h
    obtain ⟨lesson, sc, -, -, hout⟩ := completeLesson_ok h
    have h1 : s' = (applyCompletion s lesson language lesson_id sc today).1 :=
      congrArg Prod.fst hout
    have h2 : r = (applyCompletion s lesson language lesson_id sc today).2 :=
      congrArg Prod.snd hout
    rw [h1, h2]
    exact ⟨applyCompletion_fst_user_streak s lesson language lesson_id sc today, rfl⟩

/-- C2 witness: the streak cases at streak 2, yesterday = day 10,
today = day 11 (difference 1), and at a concrete completion. -/
theorem streak_transition_cases_witness :
    updateStreak 2 (some 10) 11 = (3, min 6 20) ∧
    updateStreak 2 (some 11) 11 = (2, 0) ∧
    updateStreak 2 (some 8) 11 = (1, 0) := by
  obtain ⟨-, hsame, hone, hgap, -, -⟩ := streak_transition_cases 2 10 11
  obtain ⟨-, hsame', -, -, -, -⟩ := streak_transition_cases 2 11 11
  obtain ⟨-, -, -, hgap', -, -⟩ := streak_transition_cases 2 8 11
  exact ⟨hone (by decide), hsame' (by decide), hgap' (by decide)⟩

/-- C3: after a graded completion the stored profile satisfies
`level = ⌊xp / 100⌋ + 1`, and the result reports `newLevel` (as the new
level) exactly when the new level exceeds the stored level before the
update. -/
theorem level_derivation (cat : Catalog) (s : Store)
    (language lesson_id : String) (answers : List String) (today : Int)
    (s' : Store) (r : QuizResult)
    (h : completeLesson cat s language lesson_id answers today = .ok (s', r)) :
    s'.user.level = s'.user.xp / 100 + 1 ∧
    (s.user.level < s'.user.level → r.new_level = some s'.user.level) ∧
    (¬ s.user.level < s'.user.level → r.new_level = none) := by
  obtain ⟨lesson, sc, -, -, hout⟩ := completeLesson_ok h
  have h1 : s' = (applyCompletion s lesson language lesson_id sc today).1 :=
    congrArg Prod.fst hout
  have h2 : r = (applyCompletion s lesson language lesson_id sc today).2 :=
    congrArg Prod.snd hout
  subst h1 h2
  refine ⟨applyCompletion_fst_user_level s lesson language lesson_id sc today,
    ?_, ?_⟩
  · intro hlt
    rw [applyCompletion_fst_user_level] at hlt ⊢
    rw [applyCompletion_snd]
    simp only
    rw [if_pos hlt]
  · intro hlt
    rw [applyCompletion_fst_user_level] at hlt
    rw [applyCompletion_snd]
    simp only
    rw [if_neg hlt]

/-- C3 witness: the level theorem at a completion that crosses the
100-XP boundary (90 XP + 19 earned). -/
theorem level_derivation_witness :
    store90After.user.level = store90After.user.xp / 100 + 1 ∧
    (store90.user.level < store90After.user.level →
      result90.new_level = some store90After.user.level) ∧
    (¬ store90.user.level < store90After.user.level →
      result90.new_level = none) :=
  level_derivation sampleCatalog store90 "es" "es-basics-2"
    ["uno dos tres", "Five", "siete", "Nueve"] 1 store90After result90 rfl

/-- C7 counterexample: a lesson with zero graded items is not graded with
`totalItems` treated as 1 — the handler aborts with the division-by-zero
error, so the claimed total, fallback-scoring computation does not exist. -/
theorem zero_item_lesson_divides_by_zero :
    completeLesson
      { languages := ["es"],
        lessons := [("es", [{ id := "es-empty", language := "es", order := 1,
                              xp_reward := 10, content := [] }])] }
      initialStore "es" "es-empty" ["hola"] 0
      = .error .zeroDivision := rfl

/-- C7 amended: the scoring step fails (uncaught `ZeroDivisionError`)
exactly when the lesson has zero graded items; there is no
`totalItems`-as-1 fallback, and for every non-empty item list the
computation is total. -/
theorem scoring_fails_iff_no_items (answers : List String)
    (content : List LessonItem) :
    gradeSubmission answers content = none ↔ content = [] :=
  gradeSubmission_eq_none_iff answers content

/-- C8: achievement unlocking is idempotent — awarding an id already in
the set leaves the set unchanged; re-running the rule evaluation never
removes an id; and neither awarding nor rule evaluation ever introduces a
duplicate id. -/
theorem achievement_idempotence :
    (∀ (achs : List String) (aid : String), aid ∈ achs →
      awardAchievement achs aid = achs) ∧
    (∀ (c st xp lv : Nat) (p : Bool) (achs : List String) (a : String),
      a ∈ achs → a ∈ checkLessonAchievements c st xp lv p achs) ∧
    (∀ (achs : List String) (aid : String), achs.Nodup →
      (awardAchievement achs aid).Nodup) ∧
    (∀ (c st xp lv : Nat) (p : Bool) (achs : List String), achs.Nodup →
      (checkLessonAchievements c st xp lv p achs).Nodup) :=
  ⟨fun _ _ h => awardAchievement_of_mem h,
   fun _ _ _ _ _ _ _ h => mem_checkLessonAchievements_of_mem _ _ _ _ _ h,
   fun _ aid h => nodup_awardAchievement aid h,
   fun _ _ _ _ _ _ h => nodup_checkLessonAchievements _ _ _ _ _ h⟩

/-- C8 witness: idempotence at a set already holding `first-lesson` with
all metrics at or above their thresholds. -/
theorem achievement_idempotence_witness :
    awardAchievement ["first-lesson"] "first-lesson" = ["first-lesson"] ∧
    "first-lesson" ∈ checkLessonAchievements 1 30 1000 10 true ["first-lesson"] ∧
    (awardAchievement ["first-lesson"] "xp-100").Nodup ∧
    (checkLessonAchievements 1 30 1000 10 true ["first-lesson"]).Nodup :=
  ⟨achievement_idempotence.1 ["first-lesson"] "first-lesson" (by decide),
   achievement_idempotence.2.1 1 30 1000 10 true ["first-lesson"] "first-lesson"
     (by decide),
   achievement_idempotence.2.2.1 ["first-lesson"] "xp-100" (by decide),
   achievement_idempotence.2.2.2 1 30 1000 10 true ["first-lesson"] (by decide)⟩

/-- C9: a completion request for an unknown language or unknown lesson id
returns the not-found error and changes nothing: the profile and all
completion records are exactly as before. -/
theorem not_found_no_state_change (cat : Catalog) (s : Store)
    (language lesson_id : String) (answers : List String) (today : Int)
    (h : findLesson cat language lesson_id = none) :
    completeLesson cat s language lesson_id answers today
      = .error .notFound ∧
    stepEvent cat s (.complete language lesson_id answers today) = s := by
  have h1 : completeLesson cat s language lesson_id answers today
      = .error .notFound := by
    unfold completeLesson
    rw [h]
  refine ⟨h1, ?_⟩
  simp only [stepEvent, h1]

/-- C9 witness: an unknown lesson id against the sample catalog. -/
theorem not_found_no_state_change_witness :
    completeLesson sampleCatalog store90 "es" "no-such-lesson" ["hola"] 3
      = .error .notFound ∧
    stepEvent sampleCatalog store90 (.complete "es" "no-such-lesson" ["hola"] 3)
      = store90 :=
  not_found_no_state_change sampleCatalog store90 "es" "no-such-lesson"
    ["hola"] 3 rfl

/-- C4: the XP earned by a graded completion is the base (full reward if
passed, else half, rounded down) plus the streak bonus; the new
cumulative XP is the prior XP plus that amount; and cumulative XP is
non-decreasing across any request sequence. -/
theorem xp_accounting_and_monotone :
    (∀ (cat : Catalog) (s : Store) (language lesson_id : String)
        (answers : List String) (today : Int) (lesson : Lesson)
        (s' : Store) (r : QuizResult),
      findLesson cat language lesson_id = some lesson →
      completeLesson cat s language lesson_id answers today = .ok (s', r) →
      r.xp_earned = (if r.passed then lesson.xp_reward
          else lesson.xp_reward / 2) + r.streak_bonus ∧
      s'.user.xp = s.user.xp + r.xp_earned ∧
      s.user.xp ≤ s'.user.xp) ∧
    (∀ (cat : Catalog) (s : Store) (events : List Event),
      s.user.xp ≤ (runEvents cat s events).user.xp) := by
  constructor
  · intro cat s language lesson_id answers today lesson s' r hfind h
    obtain ⟨lesson', sc, hfind', hg, hout⟩ := completeLesson_ok h
    have hll : lesson = lesson' := by
      have := hfind.symm.trans hfind'
      injection this
    subst hll
    have h1 : s' = (applyCompletion s lesson language lesson_id sc today).1 :=
      congrArg Prod.fst hout
    have h2 : r = (applyCompletion s lesson language lesson_id sc today).2 :=
      congrArg Prod.snd hout
    subst h1 h2
    refine ⟨rfl, rfl, ?_⟩
    rw [applyCompletion_fst_user_xp]
    exact Nat.le_add_right _ _
  · exact fun cat s events => runEvents_xp_mono cat events s

/-- C4 witness: the accounting facts at `store90` completing
`es-basics-2` perfectly on day 1 (base 15 + bonus 4 = 19). -/
theorem xp_accounting_and_monotone_witness :
    result90.xp_earned = (if result90.passed then esBasics2.xp_reward
        else esBasics2.xp_reward / 2) + result90.streak_bonus ∧
    store90After.user.xp = store90.user.xp + result90.xp_earned ∧
    store90.user.xp ≤ store90After.user.xp :=
  xp_accounting_and_monotone.1 sampleCatalog store90 "es" "es-basics-2"
    ["uno dos tres", "Five", "siete", "Nueve"] 1 esBasics2 store90After
    result90 rfl rfl

lemma mem_rules_of_eq_true {aid : String} {b : Bool}
    {rules : List (Bool × String)} (hb : b = true)
    (hmem : (b, aid) ∈ rules) : (true, aid) ∈ rules := hb ▸ hmem

lemma mem_checkLessonAchievements_of_rule {aid : String}
    {c st xp lv : Nat} {p : Bool} (achs : List String)
    (h : (true, aid) ∈ lessonRules c st xp lv p) :
    aid ∈ checkLessonAchievements c st xp lv p achs :=
  mem_foldl_applyRule_of_rule _ _ h

/-- Each rule of the table fires when its condition holds: the id lands
in the evaluated set whatever the starting set was. -/
lemma checkLessonAchievements_thresholds (c st xp lv : Nat) (p : Bool)
    (achs : List String) :
    (c = 1 → "first-lesson" ∈ checkLessonAchievements c st xp lv p achs) ∧
    (3 ≤ st → "streak-3" ∈ checkLessonAchievements c st xp lv p achs) ∧
    (7 ≤ st → "streak-7" ∈ checkLessonAchievements c st xp lv p achs) ∧
    (30 ≤ st → "streak-30" ∈ checkLessonAchievements c st xp lv p achs) ∧
    (100 ≤ xp → "xp-100" ∈ checkLessonAchievements c st xp lv p achs) ∧
    (500 ≤ xp → "xp-500" ∈ checkLessonAchievements c st xp lv p achs) ∧
    (1000 ≤ xp → "xp-1000" ∈ checkLessonAchievements c st xp lv p achs) ∧
    (p = true → "perfect-lesson" ∈ checkLessonAchievements c st xp lv p achs) ∧
    (5 ≤ lv → "level-5" ∈ checkLessonAchievements c st xp lv p achs) ∧
    (10 ≤ lv → "level-10" ∈ checkLessonAchievements c st xp lv p achs) := by
  refine ⟨?_, ?_, ?_, ?_, ?_, ?_, ?_, ?_, ?_, ?_⟩
  · intro hc
    have hb : (c == 1) = true := by simp [hc]
    exact mem_checkLessonAchievements_of_rule _
      (mem_rules_of_eq_true hb (by simp [lessonRules]))
  · intro hc
    exact mem_checkLessonAchievements_of_rule _
      (mem_rules_of_eq_true (decide_eq_true hc) (by simp [lessonRules]))
  · intro hc
    exact mem_checkLessonAchievements_of_rule _
      (mem_rules_of_eq_true (decide_eq_true hc) (by simp [lessonRules]))
  · intro hc
    exact mem_checkLessonAchievements_of_rule _
      (mem_rules_of_eq_true (decide_eq_true hc) (by simp [lessonRules]))
  · intro hc
    exact mem_checkLessonAchievements_of_rule _
      (mem_rules_of_eq_true (decide_eq_true hc) (by simp [lessonRules]))
  · intro hc
    exact mem_checkLessonAchievements_of_rule _
      (mem_rules_of_eq_true (decide_eq_true hc) (by simp [lessonRules]))
  · intro hc
    exact mem_checkLessonAchievements_of_rule _
      (mem_rules_of_eq_true (decide_eq_true hc) (by simp [lessonRules]))
  · intro hc
    exact mem_checkLessonAchievements_of_rule _
      (mem_rules_of_eq_true hc (by simp [lessonRules]))
  · intro hc
    exact mem_checkLessonAchievements_of_rule _
      (mem_rules_of_eq_true (decide_eq_true hc) (by simp [lessonRules]))
  · intro hc
    exact mem_checkLessonAchievements_of_rule _
      (mem_rules_of_eq_true (decide_eq_true hc) (by simp [lessonRules]))

/-- C5: after a graded completion from any reachable store, every
achievement of the rule table whose metric (taken from the updated state
and result) meets its threshold is in the updated unlocked set:
first-lesson at completed count 1; streak-3/7/30, xp-100/500/1000 and
level-5/10 at their thresholds; perfect-lesson at a 100% score; and
multi-language at 3 or more distinct languages in progress (the latter
already awarded by `start_language`, and never removed). -/
theorem achievements_unlocked_after_completion (cat : Catalog) (s : Store)
    (language lesson_id : String) (answers : List String) (today : Int)
    (s' : Store) (r : QuizResult)
    (hreach : Reachable cat s)
    (h : completeLesson cat s language lesson_id answers today = .ok (s', r)) :
    (completedCount s'.progress = 1 → "first-lesson" ∈ s'.user.achievements) ∧
    (3 ≤ s'.user.streak → "streak-3" ∈ s'.user.achievements) ∧
    (7 ≤ s'.user.streak → "streak-7" ∈ s'.user.achievements) ∧
    (30 ≤ s'.user.streak → "streak-30" ∈ s'.user.achievements) ∧
    (100 ≤ s'.user.xp → "xp-100" ∈ s'.user.achievements) ∧
    (500 ≤ s'.user.xp → "xp-500" ∈ s'.user.achievements) ∧
    (1000 ≤ s'.user.xp → "xp-1000" ∈ s'.user.achievements) ∧
    (r.correct * 100 / r.total = 100 →
      "perfect-lesson" ∈ s'.user.achievements) ∧
    (5 ≤ s'.user.level → "level-5" ∈ s'.user.achievements) ∧
    (10 ≤ s'.user.level → "level-10" ∈ s'.user.achievements) ∧
    (3 ≤ s'.user.languages_learning.dedup.length →
      "multi-language" ∈ s'.user.achievements) := by
  obtain ⟨lesson, sc, hfind, hg, hout⟩ := completeLesson_ok h
  obtain ⟨hts, hpct, hpass⟩ := gradeSubmission_spec hg
  obtain ⟨hnd, hmlang⟩ := langInv_reachable hreach
  have h1 : s' = (applyCompletion s lesson language lesson_id sc today).1 :=
    congrArg Prod.fst hout
  have h2 : r = (applyCompletion s lesson language lesson_id sc today).2 :=
    congrArg Prod.snd hout
  subst h1 h2
  have T := checkLessonAchievements_thresholds
    (completedCount (applyCompletion s lesson language lesson_id sc today).1.progress)
    (updateStreak s.user.streak s.user.last_practice_date today).1
    (applyCompletion s lesson language lesson_id sc today).1.user.xp
    ((applyCompletion s lesson language lesson_id sc today).1.user.xp / 100 + 1)
    (sc.score_pct == 100)
    s.user.achievements
  refine ⟨?_, ?_, ?_, ?_, ?_, ?_, ?_, ?_, ?_, ?_, ?_⟩
  · exact fun hc => T.1 hc
  · exact fun hc => T.2.1 hc
  · exact fun hc => T.2.2.1 hc
  · exact fun hc => T.2.2.2.1 hc
  · exact fun hc => T.2.2.2.2.1 hc
  · exact fun hc => T.2.2.2.2.2.1 hc
  · exact fun hc => T.2.2.2.2.2.2.1 hc
  · intro hc
    have hp : sc.score_pct = 100 := by
      rw [hpct]
      exact hc
    exact T.2.2.2.2.2.2.2.1 (by simp [hp])
  · exact fun hc => T.2.2.2.2.2.2.2.2.1 hc
  · exact fun hc => T.2.2.2.2.2.2.2.2.2 hc
  · intro hc
    have hc2 : 3 ≤ s.user.languages_learning.dedup.length := hc
    rw [List.dedup_eq_self.mpr hnd] at hc2
    exact mem_checkLessonAchievements_of_mem _ _ _ _ _ (hmlang hc2)

/-- C5 witness: the achievement theorem at a fresh user's first, perfect
completion (reachable via `Reachable.init`). -/
theorem achievements_unlocked_after_completion_witness :
    (completedCount firstStore.progress = 1 →
      "first-lesson" ∈ firstStore.user.achievements) ∧
    (3 ≤ firstStore.user.streak → "streak-3" ∈ firstStore.user.achievements) ∧
    (7 ≤ firstStore.user.streak → "streak-7" ∈ firstStore.user.achievements) ∧
    (30 ≤ firstStore.user.streak →
      "streak-30" ∈ firstStore.user.achievements) ∧
    (100 ≤ firstStore.user.xp → "xp-100" ∈ firstStore.user.achievements) ∧
    (500 ≤ firstStore.user.xp → "xp-500" ∈ firstStore.user.achievements) ∧
    (1000 ≤ firstStore.user.xp → "xp-1000" ∈ firstStore.user.achievements) ∧
    (firstResult.correct * 100 / firstResult.total = 100 →
      "perfect-lesson" ∈ firstStore.user.achievements) ∧
    (5 ≤ firstStore.user.level → "level-5" ∈ firstStore.user.achievements) ∧
    (10 ≤ firstStore.user.level → "level-10" ∈ firstStore.user.achievements) ∧
    (3 ≤ firstStore.user.languages_learning.dedup.length →
      "multi-language" ∈ firstStore.user.achievements) :=
  achievements_unlocked_after_completion sampleCatalog initialStore "es"
    "es-basics-1" ["hola", "Good morning", "gracias", "Adiós"] 0
    firstStore firstResult Reachable.init rfl

/-- Under unique record keys, the progress-map lookup reports a completed
record exactly when some record for that lesson id is completed. -/
lemma lookupProgress_completed_iff {docs : List ProgressRec}
    (hkeys : (docs.map (fun p => p.lesson_id)).Nodup) (lid : String) :
    ((lookupProgress docs lid).map (fun p => p.completed)).getD false = true
    ↔ ∃ p ∈ docs, p.lesson_id = lid ∧ p.completed = true := by
  unfold lookupProgress
  constructor
  · intro h
    cases hf : docs.reverse.find? (fun p => p.lesson_id == lid) with
    | none =>
      rw [hf] at h
      simp at h
    | some q =>
      rw [hf] at h
      simp only [Option.map_some', Option.getD_some] at h
      have hq := List.mem_reverse.mp (List.mem_of_find?_eq_some hf)
      have hqq : q.lesson_id = lid := by simpa using List.find?_some hf
      exact ⟨q, hq, hqq, h⟩
  · rintro ⟨p, hp, hpid, hpc⟩
    cases hf : docs.reverse.find? (fun pp => pp.lesson_id == lid) with
    | none =>
      exfalso
      have := List.find?_eq_none.mp hf p (List.mem_reverse.mpr hp)
      simp [hpid] at this
    | some q =>
      have hq := List.mem_reverse.mp (List.mem_of_find?_eq_some hf)
      have hqq : q.lesson_id = lid := by simpa using List.find?_some hf
      have hqp : q = p :=
        List.inj_on_of_nodup_map hkeys hq hp (hqq.trans hpid.symm)
      simp [hqp, hpc]

lemma bool_not_eq_false {b : Bool} : ((!b) = false) ↔ b = true := by
  cases b <;> simp

/-- C6: the lesson-list derivation marks every order-1 lesson unlocked,
and marks a lesson of order k > 1 unlocked exactly when some lesson of
order k - 1 has a completed record among the user's records for that
language (given at most one record per lesson, as the upsert maintains).
In particular, with no completed order k - 1 lesson it stays locked. -/
theorem lesson_unlock_rule (cat : Catalog) (s : Store) (language : String)
    (hkeys : ((s.progress.filter (fun p => p.language == language)).map
      (fun p => p.lesson_id)).Nodup) :
    getLessons cat s language
      = (cat.lessonsFor language).map
          (lessonView (cat.lessonsFor language)
            (s.progress.filter (fun p => p.language == language))) ∧
    ∀ lesson ∈ cat.lessonsFor language,
      (lesson.order = 1 →
        (lessonView (cat.lessonsFor language)
          (s.progress.filter (fun p => p.language == language))
          lesson).locked = false) ∧
      (1 < lesson.order →
        ((lessonView (cat.lessonsFor language)
            (s.progress.filter (fun p => p.language == language))
            lesson).locked = false ↔
          ∃ l ∈ cat.lessonsFor language, l.order = lesson.order - 1 ∧
            ∃ p ∈ s.progress.filter (fun p => p.language == language),
              p.lesson_id = l.id ∧ p.completed = true)) := by
  refine ⟨rfl, ?_⟩
  intro lesson hl
  constructor
  · intro h1
    simp [lessonView, h1]
  · intro hgt
    have hne : (lesson.order == 1) = false := by
      simp
      omega
    simp only [lessonView, hne, Bool.false_eq_true, if_false]
    rw [if_pos hgt]
    rw [bool_not_eq_false]
    rw [List.any_eq_true]
    constructor
    · rintro ⟨l, hlmem, hcomp⟩
      obtain ⟨hlmem', hord⟩ := List.mem_filter.mp hlmem
      exact ⟨l, hlmem', by simpa using hord,
        (lookupProgress_completed_iff hkeys l.id).mp hcomp⟩
    · rintro ⟨l, hlmem, hord, hex⟩
      exact ⟨l, List.mem_filter.mpr ⟨hlmem, by simpa using hord⟩,
        (lookupProgress_completed_iff hkeys l.id).mpr hex⟩

/-- C6 witness: the unlock rule at the sample catalog and the store that
has completed only `es-basics-1`. -/
theorem lesson_unlock_rule_witness :
    getLessons sampleCatalog store90 "es"
      = (sampleCatalog.lessonsFor "es").map
          (lessonView (sampleCatalog.lessonsFor "es")
            (store90.progress.filter (fun p => p.language == "es"))) ∧
    ∀ lesson ∈ sampleCatalog.lessonsFor "es",
      (lesson.order = 1 →
        (lessonView (sampleCatalog.lessonsFor "es")
          (store90.progress.filter (fun p => p.language == "es"))
          lesson).locked = false) ∧
      (1 < lesson.order →
        ((lessonView (sampleCatalog.lessonsFor "es")
            (store90.progress.filter (fun p => p.language == "es"))
            lesson).locked = false ↔
          ∃ l ∈ sampleCatalog.lessonsFor "es", l.order = lesson.order - 1 ∧
            ∃ p ∈ store90.progress.filter (fun p => p.language == "es"),
              p.lesson_id = l.id ∧ p.completed = true)) :=
  lesson_unlock_rule sampleCatalog store90 "es" (by decide)

/-- C10: a graded submission upserts the (user, lesson) record to exactly
that submission's outcome — `completed` is the new `passed` and `score`
the new percentage, discarding any better prior attempt — and,
concretely, a user who had passed `es-basics-1` (unlocking
`es-basics-2`) and then fails a re-attempt has the record reverted to
incomplete, relocking `es-basics-2`. -/
theorem completion_record_overwritten :
    (∀ (cat : Catalog) (s : Store) (language lesson_id : String)
        (answers : List String) (today : Int) (s' : Store) (r : QuizResult),
      completeLesson cat s language lesson_id answers today = .ok (s', r) →
      s'.progress.find? (fun p => p.lesson_id == lesson_id)
        = some { lesson_id := lesson_id, language := language,
                 completed := r.passed,
                 score := r.correct * 100 / r.total }) ∧
    ((getLessons sampleCatalog store90 "es").map
        (fun v => (v.id, v.completed, v.locked))
      = [("es-basics-1", true, false), ("es-basics-2", false, false)] ∧
     (getLessons sampleCatalog
          (stepEvent sampleCatalog store90
            (.complete "es" "es-basics-1" [] 2)) "es").map
        (fun v => (v.id, v.completed, v.locked))
      = [("es-basics-1", false, false), ("es-basics-2", false, true)]) := by
  constructor
  · intro cat s language lesson_id answers today s' r h
    obtain ⟨lesson, sc, hfind, hg, hout⟩ := completeLesson_ok h
    obtain ⟨hts, hpct, hpass⟩ := gradeSubmission_spec hg
    have h1 : s' = (applyCompletion s lesson language lesson_id sc today).1 :=
      congrArg Prod.fst hout
    have h2 : r = (applyCompletion s lesson language lesson_id sc today).2 :=
      congrArg Prod.snd hout
    subst h1 h2
    rw [applyCompletion_fst_progress]
    show List.find? (fun p => p.lesson_id ==
        ({ lesson_id := lesson_id, language := language,
           completed := sc.passed, score := sc.score_pct } : ProgressRec).lesson_id)
      (upsertProgress s.progress
        { lesson_id := lesson_id, language := language,
          completed := sc.passed, score := sc.score_pct })
      = some { lesson_id := lesson_id, language := language,
               completed := sc.passed, score := sc.correct * 100 / sc.total }
    rw [← hpct]
    exact find?_upsertProgress s.progress _
  · exact ⟨rfl, rfl⟩

/-- C10 witness: the overwrite fact at `store90` acing `es-basics-2`. -/
theorem completion_record_overwritten_witness :
    store90After.progress.find? (fun p => p.lesson_id == "es-basics-2")
      = some { lesson_id := "es-basics-2", language := "es",
               completed := result90.passed,
               score := result90.correct * 100 / result90.total } :=
  completion_record_overwritten.1 sampleCatalog store90 "es" "es-basics-2"
    ["uno dos tres", "Five", "siete", "Nueve"] 1 store90After result90 rfl
